import Mathlib

/-!
Shallow embedding of the metadata-acquisition subsystem of the
game_reviews repository (src/igdb.rs): the sqlite-backed cache
(`SqliteCache`), the remote client construction (`IGDB::new`), the
request helper (`IGDB::req_igdb`) and the batch resolver
(`IGDB::get_objects` / `get_covers`).

Modelling conventions:
- The sqlite table `igdb_cache (igdb_id, endpoint, value)` is a list of
  rows in insertion (rowid) order; `fetch_optional` of a `SELECT` with
  no `ORDER BY` returns the first matching row in that order.
- Serialization is modelled away: rows store the typed value directly,
  since `serde_json` round-trips every value this program stores.
- Storage-layer insert failure is modelled by a predicate
  `insertOk : Nat -> a -> Bool` saying whether the SQL insert of a given
  pair succeeds; the sqlx transaction semantics (commit on success,
  rollback on error) are modelled explicitly in `set_many`.
- The network is modelled by passing the outcome of the single possible
  HTTP exchange as a `FetchResult` value; the rate limiter by counting
  consumed tokens; the environment by a function `String -> Option String`.
-/

deriving instance DecidableEq for Except

namespace GameReviews

/-- A row of the `igdb_cache` sqlite table: `(igdb_id, endpoint, value)`.
The table has no uniqueness constraint, so duplicates may accumulate. -/
structure Row (α : Type) where
  igdb_id : Nat
  endpoint : String
  value : α
deriving DecidableEq, Repr

/-- Model of `HashMap<u32, T>` as an association list with unique keys,
kept in first-insertion order. -/
def hmInsert {α : Type} (m : List (Nat × α)) (k : Nat) (v : α) : List (Nat × α) :=
  match m with
  | [] => [(k, v)]
  | (k', v') :: rest => if k' = k then (k, v) :: rest else (k', v') :: hmInsert rest k v

/-- Model of `HashMap::get`. -/
def hmLookup {α : Type} (m : List (Nat × α)) (k : Nat) : Option α :=
  match m with
  | [] => none
  | (k', v') :: rest => if k' = k then some v' else hmLookup rest k

/-- Model of `HashMap::contains_key`. -/
def hmContains {α : Type} (m : List (Nat × α)) (k : Nat) : Bool :=
  (hmLookup m k).isSome

namespace SqliteCache

/-- `SqliteCache::get`: `SELECT value FROM igdb_cache WHERE igdb_id = ? AND
endpoint = ?` read with `fetch_optional`, i.e. the first matching row in
rowid (insertion) order, deserialized. Deserialization of a value written
by `_set` always succeeds and is modelled away. -/
def get {α : Type} (st : List (Row α)) (id : Nat) (endpoint : String) : Option α :=
  (st.find? (fun r => r.igdb_id == id && r.endpoint == endpoint)).map Row.value

/-- The loop of `SqliteCache::set_many`: each `_set` runs
`INSERT INTO igdb_cache (igdb_id, endpoint, value) VALUES (?,?,?)` inside
the open transaction; the first failing insert aborts the loop. -/
def setManyGo {α : Type} (tx : List (Row α)) (endpoint : String)
    (vals : List (Nat × α)) (insertOk : Nat → α → Bool) : Except String (List (Row α)) :=
  match vals with
  | [] => .ok tx
  | (id, v) :: rest =>
    if insertOk id v then setManyGo (tx ++ [⟨id, endpoint, v⟩]) endpoint rest insertOk
    else .error "insert failed"

/-- `SqliteCache::set_many`: begins a transaction, runs `_set` for every
pair, commits on success. On error the transaction is dropped without
commit, so the store is left unchanged (sqlx rollback-on-drop). Returns
the resulting store state and the call outcome. -/
def set_many {α : Type} (st : List (Row α)) (endpoint : String)
    (vals : List (Nat × α)) (insertOk : Nat → α → Bool) :
    List (Row α) × Except String Unit :=
  match setManyGo st endpoint vals insertOk with
  | .ok tx => (tx, .ok ())
  | .error e => (st, .error e)

/-- `SqliteCache::get_many`: iterates the requested ids in order, calls
`get` for each, and inserts every hit into the result `HashMap`. -/
def get_many {α : Type} (st : List (Row α)) (endpoint : String) (ids : List Nat) :
    List (Nat × α) :=
  ids.foldl
    (fun result id =>
      match get st id endpoint with
      | some v => hmInsert result id v
      | none => result)
    []

end SqliteCache

/-- Outcome of the single HTTP exchange a `req_igdb` call can perform,
as seen after reading the response body:
- `transportErr`: the request could not be built or sent, the body could
  not be read, or it was not valid utf-8;
- `httpErr strbody`: the response status was not a success; `strbody` is
  the response body text;
- `decodeErr strbody errMsg`: success status, but `serde_json` failed to
  decode the body into `Vec<T>`;
- `ok records`: success status and the decoded record list. -/
inductive FetchResult (α : Type) where
  | transportErr (msg : String)
  | httpErr (strbody : String)
  | decodeErr (strbody errMsg : String)
  | ok (records : List α)
deriving DecidableEq

/-- The `Cover` record: `id` plus the image `url`. -/
structure Cover where
  id : Nat
  url : String
deriving DecidableEq, Repr

/-- `str::contains` style prefix test on character lists, used to model
the pattern matching inside `str::replace`. -/
def charsMatch : List Char → List Char → Bool
  | [], _ => true
  | _ :: _, [] => false
  | p :: ps, c :: cs => p == c && charsMatch ps cs

/-- Fuel-indexed loop of `rustReplace`; the fuel is the length of the
scanned text, which suffices because every step consumes at least one
character of it (the patterns used in the source are non-empty). -/
def replaceGo (pat repl : List Char) : Nat → List Char → List Char
  | _, [] => []
  | 0, s => s
  | fuel + 1, c :: rest =>
    if charsMatch pat (c :: rest) then
      repl ++ replaceGo pat repl fuel ((c :: rest).drop pat.length)
    else
      c :: replaceGo pat repl fuel rest

/-- Model of Rust `str::replace`: replaces every non-overlapping
occurrence of `pat` in `s` by `repl`, scanning left to right. -/
def rustReplace (s pat repl : String) : String :=
  ⟨replaceGo pat.data repl.data s.data.length s.data⟩

/-- Model of `Vec<String>::join(",")`. -/
def joinComma : List String → String
  | [] => ""
  | [s] => s
  | s :: rest => s ++ "," ++ joinComma rest

namespace IGDB

/-- The state of a constructed `IGDB` client that the embedding tracks:
its credentials and the fixed rate-limiter quota (4 requests/second). -/
structure Client where
  client_id : String
  access_token : String
  quotaPerSecond : Nat
deriving DecidableEq, Repr

/-- The token-exchange HTTP response, as seen after reading the body:
`statusSuccess` records whether the status was a success (note the
source never consults it), `strbody` is the body text, and
`decodedToken` is the result of decoding the body into the
`TwitchToken { access_token }` structure with `serde_json`. -/
structure ExchangeResp where
  statusSuccess : Bool
  strbody : String
  decodedToken : Option String
deriving DecidableEq, Repr

/-- Outcome of the token-exchange call of `IGDB::new`: either a
transport-level failure (request building, sending, body reading or
utf-8 decoding), or a response. -/
inductive ExchangeOutcome where
  | transportErr (msg : String)
  | resp (r : ExchangeResp)
deriving DecidableEq, Repr

/-- `IGDB::new`: reads `IGDB_TWITCH_CLIENT_ID` and
`IGDB_TWITCH_CLIENT_SECRET` from the environment (each missing variable
is an immediate error), then uses `TWITCH_ACCESS_TOKEN` if present;
otherwise performs the token exchange and decodes its body into
`TwitchToken`. The HTTP status of the exchange response is never
examined. The rate limiter is constructed with a quota of 4 per second. -/
def new (env : String → Option String) (exchange : ExchangeOutcome) :
    Except String Client :=
  match env "IGDB_TWITCH_CLIENT_ID" with
  | none => .error "env var IGDB_TWITCH_CLIENT_ID not found"
  | some client_id =>
    match env "IGDB_TWITCH_CLIENT_SECRET" with
    | none => .error "env var IGDB_TWITCH_CLIENT_SECRET not found"
    | some _client_secret =>
      match env "TWITCH_ACCESS_TOKEN" with
      | some tok => .ok ⟨client_id, tok, 4⟩
      | none =>
        match exchange with
        | .transportErr m => .error m
        | .resp r =>
          match r.decodedToken with
          | none => .error ("invalid response from twitch: " ++ r.strbody)
          | some tok => .ok ⟨client_id, tok, 4⟩

/-- `IGDB::req_igdb`: issues the POST to the endpoint (after waiting for
the rate limiter) and interprets the response: transport errors
propagate; a non-success status yields the formatted error carrying the
endpoint, the request body and the response body; a decode failure
propagates the serde error; otherwise the decoded records are returned. -/
def req_igdb {α : Type} (endpoint body : String) (resp : FetchResult α) :
    Except String (List α) :=
  match resp with
  | .transportErr m => .error m
  | .httpErr strbody =>
    .error ("invalid request for endpoint " ++ endpoint ++ " with body "
      ++ body ++ ": " ++ strbody)
  | .decodeErr _ errMsg => .error errMsg
  | .ok l => .ok l

/-- What one `get_objects` call produced: its return value, the cache
state after the call, the list of (endpoint, body) HTTP requests issued
to the IGDB API, and the number of rate-limiter tokens consumed. -/
structure ResolveOut (α : Type) where
  result : Except String (List α)
  cache : List (Row α)
  requests : List (String × String)
  tokens : Nat
deriving DecidableEq

/-- `IGDB::get_objects`: reads the cache with `get_many`, joins the
decimal representations of the ids whose lookup missed, and if that
string is empty returns the cached values alone (no request, no token).
Otherwise it issues one `req_igdb` with the query body, persists the
fetched records with `set_many` keyed by their own `id` field, and
returns the fetched records followed by the cached values. Any error
aborts the call. `getId` models the `HasCacheId` bound; `resp` the
remote outcome; `insertOk` the storage-layer insert outcomes. -/
def get_objects {α : Type} (getId : α → Nat) (cache : List (Row α))
    (endpoint fields : String) (ids : List Nat) (resp : FetchResult α)
    (insertOk : Nat → α → Bool) : ResolveOut α :=
  let cached_items := SqliteCache.get_many cache endpoint ids
  let ids_str :=
    joinComma ((ids.filter (fun i => !(hmContains cached_items i))).map
      (fun i => toString i))
  if ids_str = "" then
    { result := .ok (cached_items.map Prod.snd), cache := cache,
      requests := [], tokens := 0 }
  else
    let body := "limit 500; fields " ++ fields ++ "; where id=(" ++ ids_str ++ ");"
    match req_igdb endpoint body resp with
    | .error e =>
      { result := .error e, cache := cache, requests := [(endpoint, body)],
        tokens := 1 }
    | .ok result =>
      match SqliteCache.set_many cache endpoint
          (result.map (fun g => (getId g, g))) insertOk with
      | (st, .error e) =>
        { result := .error e, cache := st, requests := [(endpoint, body)],
          tokens := 1 }
      | (st, .ok ()) =>
        { result := .ok (result ++ cached_items.map Prod.snd), cache := st,
          requests := [(endpoint, body)], tokens := 1 }

/-- `IGDB::get_covers`: resolves through `get_objects` on the `covers`
endpoint, then rewrites every returned URL by replacing the `t_thumb`
size token with `t_cover_med` and prepending the `https:` scheme. -/
def get_covers (cache : List (Row Cover)) (cover_ids : List Nat)
    (resp : FetchResult Cover) (insertOk : Nat → Cover → Bool) : ResolveOut Cover :=
  let out := get_objects Cover.id cache "covers" "*" cover_ids resp insertOk
  { out with
    result := out.result.map (fun covers =>
      covers.map (fun cover =>
        { cover with url := "https:" ++ rustReplace cover.url "t_thumb" "t_cover_med" })) }

end IGDB

/-! ### Lemmas about the `HashMap` model -/

theorem hmLookup_insert {α : Type} (m : List (Nat × α)) (k i : Nat) (v : α) :
    hmLookup (hmInsert m k v) i = if k = i then some v else hmLookup m i := by
  induction m with
  | nil => simp [hmInsert, hmLookup]
  | cons p rest ih =>
    obtain ⟨k', v'⟩ := p
    by_cases h1 : k' = k
    · subst h1
      by_cases h2 : k' = i <;> simp [hmInsert, hmLookup, h2]
    · by_cases h2 : k' = i
      · subst h2
        have hki : ¬(k = k') := fun h => h1 h.symm
        simp [hmInsert, hmLookup, h1, hki]
      · simp [hmInsert, hmLookup, h1, h2, ih]

/-- Characterization of the `get_many` fold for an arbitrary accumulator. -/
theorem hmLookup_get_many_go {α : Type} (st : List (Row α)) (ep : String)
    (ids : List Nat) (acc : List (Nat × α)) (i : Nat) :
    hmLookup (ids.foldl (fun result id =>
        match SqliteCache.get st id ep with
        | some v => hmInsert result id v
        | none => result) acc) i =
      if i ∈ ids ∧ (SqliteCache.get st i ep).isSome then SqliteCache.get st i ep
      else hmLookup acc i := by
  induction ids generalizing acc with
  | nil => simp
  | cons id rest ih =>
    simp only [List.foldl_cons]
    rw [ih]
    by_cases h1 : i ∈ rest ∧ (SqliteCache.get st i ep).isSome
    · rw [if_pos h1, if_pos ⟨List.mem_cons_of_mem _ h1.1, h1.2⟩]
    · rw [if_neg h1]
      by_cases hid : i = id
      · subst hid
        cases hget : SqliteCache.get st i ep with
        | some v => simp [hmLookup_insert]
        | none => simp
      · have h2 : ¬(i ∈ id :: rest ∧ (SqliteCache.get st i ep).isSome) := by
          rintro ⟨hm, hs⟩
          rcases List.mem_cons.mp hm with h | h
          · exact hid h
          · exact h1 ⟨h, hs⟩
        rw [if_neg h2]
        have hid2 : ¬(id = i) := fun h => hid h.symm
        cases hget : SqliteCache.get st id ep with
        | some v => simp [hget, hmLookup_insert, hid2]
        | none => simp [hget]

/-- Looking an id up in the result of `get_many` gives exactly what `get`
gives for that id when it was requested, and nothing otherwise. -/
theorem hmLookup_get_many {α : Type} (st : List (Row α)) (ep : String)
    (ids : List Nat) (i : Nat) :
    hmLookup (SqliteCache.get_many st ep ids) i =
      if i ∈ ids then SqliteCache.get st i ep else none := by
  unfold SqliteCache.get_many
  rw [hmLookup_get_many_go]
  by_cases hmem : i ∈ ids
  · cases hget : SqliteCache.get st i ep with
    | some v => simp [hmem, hget]
    | none => simp [hmem, hget, hmLookup]
  · simp [hmem, hmLookup]

/-- The miss filter of `get_objects`, written through the cache map, is
the filter of the ids whose direct cache lookup misses. -/
theorem misses_filter_eq {α : Type} (st : List (Row α)) (ep : String) (ids : List Nat) :
    ids.filter (fun i => !(hmContains (SqliteCache.get_many st ep ids) i)) =
      ids.filter (fun i => (SqliteCache.get st i ep).isNone) := by
  apply List.filter_congr
  intro a ha
  unfold hmContains
  rw [hmLookup_get_many, if_pos ha]
  cases SqliteCache.get st a ep <;> rfl

/-! ### The decimal representation of a `Nat` is never empty -/

theorem toDigitsCore_length_mono (b : Nat) :
    ∀ (fuel n : Nat) (ds : List Char), ds.length ≤ (Nat.toDigitsCore b fuel n ds).length := by
  intro fuel
  induction fuel with
  | zero => intro n ds; simp [Nat.toDigitsCore]
  | succ f ih =>
    intro n ds
    simp only [Nat.toDigitsCore]
    by_cases h : n / b = 0
    · simp [h]
    · simp only [h, if_false]
      calc ds.length ≤ (Nat.digitChar (n % b) :: ds).length := by simp
        _ ≤ _ := ih (n / b) _

theorem nat_repr_length_pos (n : Nat) : 0 < (Nat.repr n).length := by
  show 0 < (Nat.toDigits 10 n).asString.length
  have hlen : 0 < (Nat.toDigits 10 n).length := by
    unfold Nat.toDigits
    simp only [Nat.toDigitsCore]
    by_cases h : n / 10 = 0
    · simp [h]
    · simp only [h, if_false]
      calc 0 < [Nat.digitChar (n % 10)].length := by simp
        _ ≤ _ := toDigitsCore_length_mono 10 n (n / 10) _
  simpa [String.length, List.asString] using hlen

theorem joinComma_length (s : String) (rest : List String) :
    s.length ≤ (joinComma (s :: rest)).length := by
  cases rest with
  | nil => simp [joinComma]
  | cons r rrest =>
    simp only [joinComma, String.length_append]
    omega

theorem joinComma_toString_ne_empty (m : Nat) (rest : List Nat) :
    ¬(joinComma ((m :: rest).map (fun i => toString i)) = "") := by
  intro hcontra
  have h1 : (toString m).length ≤ (joinComma ((m :: rest).map (fun i => toString i))).length := by
    simpa using joinComma_length (toString m) (rest.map (fun i => toString i))
  have h2 : 0 < (toString m).length := nat_repr_length_pos m
  rw [hcontra] at h1
  rw [show ("" : String).length = 0 from rfl] at h1
  omega

/-! ### `set_many` success and failure -/

theorem setManyGo_ok {α : Type} (ep : String) (insertOk : Nat → α → Bool) :
    ∀ (vals : List (Nat × α)) (tx : List (Row α)),
      (∀ p ∈ vals, insertOk p.1 p.2 = true) →
      SqliteCache.setManyGo tx ep vals insertOk =
        .ok (tx ++ vals.map (fun p => ⟨p.1, ep, p.2⟩)) := by
  intro vals
  induction vals with
  | nil => intro tx _; simp [SqliteCache.setManyGo]
  | cons p rest ih =>
    intro tx h
    obtain ⟨id, v⟩ := p
    simp only [SqliteCache.setManyGo]
    rw [if_pos (h (id, v) (List.mem_cons_self _ _))]
    refine (ih (tx ++ [⟨id, ep, v⟩]) (fun q hq => h q (List.mem_cons_of_mem _ hq))).trans ?_
    simp

theorem setManyGo_err {α : Type} (ep : String) (insertOk : Nat → α → Bool) :
    ∀ (vals : List (Nat × α)) (tx : List (Row α)),
      (∃ p ∈ vals, insertOk p.1 p.2 = false) →
      SqliteCache.setManyGo tx ep vals insertOk = .error "insert failed" := by
  intro vals
  induction vals with
  | nil => intro tx h; obtain ⟨p, hp, _⟩ := h; cases hp
  | cons q rest ih =>
    intro tx h
    obtain ⟨id, v⟩ := q
    simp only [SqliteCache.setManyGo]
    by_cases hq : insertOk id v = true
    · rw [if_pos hq]
      apply ih
      obtain ⟨p, hp, hfail⟩ := h
      rcases List.mem_cons.mp hp with rfl | hmem
      · rw [hq] at hfail; cases hfail
      · exact ⟨p, hmem, hfail⟩
    · rw [if_neg hq]

theorem set_many_ok {α : Type} (st : List (Row α)) (ep : String)
    (vals : List (Nat × α)) (insertOk : Nat → α → Bool)
    (h : ∀ p ∈ vals, insertOk p.1 p.2 = true) :
    SqliteCache.set_many st ep vals insertOk =
      (st ++ vals.map (fun p => ⟨p.1, ep, p.2⟩), .ok ()) := by
  unfold SqliteCache.set_many
  rw [setManyGo_ok ep insertOk vals st h]

theorem set_many_err {α : Type} (st : List (Row α)) (ep : String)
    (vals : List (Nat × α)) (insertOk : Nat → α → Bool)
    (h : ∃ p ∈ vals, insertOk p.1 p.2 = false) :
    SqliteCache.set_many st ep vals insertOk = (st, .error "insert failed") := by
  unfold SqliteCache.set_many
  rw [setManyGo_err ep insertOk vals st h]

/-! ### The two branches of `get_objects` -/

/-- The body of the request `get_objects` issues when some ids are
uncached: the decimal ids whose cache lookup missed, joined by commas,
spliced into the fixed query template. -/
def missRequestBody {α : Type} (st : List (Row α)) (ep fields : String)
    (ids : List Nat) : String :=
  "limit 500; fields " ++ fields ++ "; where id=(" ++
    joinComma ((ids.filter (fun i => (SqliteCache.get st i ep).isNone)).map
      (fun i => toString i)) ++ ");"

/-- When every requested id is cached, `get_objects` takes the early
branch: no request, no rate-limiter token, cache untouched, and the
cached values are returned. -/
theorem get_objects_hit_eq {α : Type} (getId : α → Nat) (st : List (Row α))
    (ep fields : String) (ids : List Nat) (resp : FetchResult α)
    (insertOk : Nat → α → Bool)
    (hall : ∀ i ∈ ids, (SqliteCache.get st i ep).isSome = true) :
    IGDB.get_objects getId st ep fields ids resp insertOk =
      ⟨.ok ((SqliteCache.get_many st ep ids).map Prod.snd), st, [], 0⟩ := by
  have hfil : ids.filter (fun i => (SqliteCache.get st i ep).isNone) = [] := by
    rw [List.filter_eq_nil_iff]
    intro a ha
    have := hall a ha
    cases h : SqliteCache.get st a ep <;> simp_all
  simp only [IGDB.get_objects, misses_filter_eq, hfil]
  simp [joinComma]

/-- When at least one requested id is uncached, `get_objects` takes the
fetch branch with the request body of `missRequestBody`. -/
theorem get_objects_miss_eq {α : Type} (getId : α → Nat) (st : List (Row α))
    (ep fields : String) (ids : List Nat) (resp : FetchResult α)
    (insertOk : Nat → α → Bool)
    (hmiss : ∃ i ∈ ids, SqliteCache.get st i ep = none) :
    IGDB.get_objects getId st ep fields ids resp insertOk =
      (match IGDB.req_igdb ep (missRequestBody st ep fields ids) resp with
       | .error e => ⟨.error e, st, [(ep, missRequestBody st ep fields ids)], 1⟩
       | .ok result =>
         match SqliteCache.set_many st ep (result.map (fun g => (getId g, g))) insertOk with
         | (st2, .error e) =>
           ⟨.error e, st2, [(ep, missRequestBody st ep fields ids)], 1⟩
         | (st2, .ok ()) =>
           ⟨.ok (result ++ (SqliteCache.get_many st ep ids).map Prod.snd), st2,
            [(ep, missRequestBody st ep fields ids)], 1⟩) := by
  have hne : ¬(joinComma ((ids.filter (fun i => (SqliteCache.get st i ep).isNone)).map
      (fun i => toString i)) = "") := by
    obtain ⟨m, hm, hnone⟩ := hmiss
    have hmem : m ∈ ids.filter (fun i => (SqliteCache.get st i ep).isNone) :=
      List.mem_filter.mpr ⟨hm, by simp [hnone]⟩
    cases hfil : ids.filter (fun i => (SqliteCache.get st i ep).isNone) with
    | nil => rw [hfil] at hmem; cases hmem
    | cons a l => exact joinComma_toString_ne_empty a l
  simp only [IGDB.get_objects, misses_filter_eq, missRequestBody]
  rw [if_neg hne]

/-! ### Visibility of appended rows -/

/-- A `get` that misses the first rows of the table continues into the
rows appended after them. -/
theorem get_append_of_none {α : Type} (st1 st2 : List (Row α)) (id : Nat) (ep : String)
    (h : SqliteCache.get st1 id ep = none) :
    SqliteCache.get (st1 ++ st2) id ep = SqliteCache.get st2 id ep := by
  unfold SqliteCache.get at h ⊢
  rw [List.find?_append]
  cases hf : List.find? (fun r => r.igdb_id == id && r.endpoint == ep) st1 with
  | none => simp
  | some r => rw [hf] at h; simp at h

/-- Reading an inserted batch: the pair for an id that occurs only once
in the batch is found among the rows built from the batch. -/
theorem get_map_rows {α : Type} (ep : String) :
    ∀ (vals : List (Nat × α)) (p : Nat × α), p ∈ vals →
      (∀ q ∈ vals, q.1 = p.1 → q = p) →
      SqliteCache.get (vals.map (fun q => ⟨q.1, ep, q.2⟩)) p.1 ep = some p.2 := by
  intro vals
  induction vals with
  | nil => intro p hp _; cases hp
  | cons q rest ih =>
    intro p hp huniq
    by_cases hq : q.1 = p.1
    · have hqp : q = p := huniq q (List.mem_cons_self _ _) hq
      subst hqp
      unfold SqliteCache.get
      rw [List.map_cons, List.find?_cons_of_pos _ (by simp)]
      rfl
    · unfold SqliteCache.get
      rw [List.map_cons, List.find?_cons_of_neg _ (by simp [hq])]
      have hp' : p ∈ rest := by
        rcases List.mem_cons.mp hp with rfl | h
        · exact absurd rfl hq
        · exact h
      exact ih p hp' (fun r hr he => huniq r (List.mem_cons_of_mem _ hr) he)

/-- Inserting a key absent from the map appends the pair at the end. -/
theorem hmInsert_fresh {α : Type} (m : List (Nat × α)) (k : Nat) (v : α)
    (h : hmLookup m k = none) : hmInsert m k v = m ++ [(k, v)] := by
  induction m with
  | nil => rfl
  | cons p rest ih =>
    obtain ⟨k', v'⟩ := p
    unfold hmLookup at h
    by_cases hk : k' = k
    · rw [if_pos hk] at h; cases h
    · simp only [hmInsert, if_neg hk, List.cons_append]
      rw [ih (by rwa [if_neg hk] at h)]

/-- A pair appended at the end does not change lookups of other keys. -/
theorem hmLookup_append_fresh {α : Type} (m : List (Nat × α)) (p : Nat × α) (k : Nat)
    (h : ¬(k = p.1)) : hmLookup (m ++ [p]) k = hmLookup m k := by
  induction m with
  | nil =>
    obtain ⟨k', v'⟩ := p
    simp only [List.nil_append, hmLookup]
    rw [if_neg (fun he => h he.symm)]
  | cons q rest ih =>
    obtain ⟨k', v'⟩ := q
    simp only [List.cons_append, hmLookup]
    by_cases hk : k' = k
    · rw [if_pos hk, if_pos hk]
    · rw [if_neg hk, if_neg hk]; exact ih

/-- The `get_many` fold over ids that all hit `st'` with pairwise
distinct keys and miss the accumulator reproduces the pair list. -/
theorem get_many_fresh_go {α : Type} (st' : List (Row α)) (ep : String) :
    ∀ (vals : List (Nat × α)) (acc : List (Nat × α)),
      (vals.map Prod.fst).Nodup →
      (∀ p ∈ vals, SqliteCache.get st' p.1 ep = some p.2) →
      (∀ p ∈ vals, hmLookup acc p.1 = none) →
      (vals.map Prod.fst).foldl (fun result id =>
        match SqliteCache.get st' id ep with
        | some v => hmInsert result id v
        | none => result) acc = acc ++ vals := by
  intro vals
  induction vals with
  | nil => intro acc _ _ _; simp
  | cons p rest ih =>
    intro acc hnodup hget hacc
    simp only [List.map_cons, List.foldl_cons]
    have h1 : (match SqliteCache.get st' p.1 ep with
        | some v => hmInsert acc p.1 v
        | none => acc) = hmInsert acc p.1 p.2 := by
      rw [hget p (List.mem_cons_self _ _)]
    rw [h1, hmInsert_fresh acc p.1 p.2 (hacc p (List.mem_cons_self _ _))]
    have hnodup2 : p.1 ∉ rest.map Prod.fst ∧ (rest.map Prod.fst).Nodup := by
      rw [List.map_cons] at hnodup
      exact List.nodup_cons.mp hnodup
    rw [ih (acc ++ [(p.1, p.2)]) hnodup2.2
      (fun q hq => hget q (List.mem_cons_of_mem _ hq)) ?_]
    · simp
    · intro q hq
      rw [hmLookup_append_fresh]
      · exact hacc q (List.mem_cons_of_mem _ hq)
      · intro he
        exact hnodup2.1 (he ▸ List.mem_map.mpr ⟨q, hq, rfl⟩)

/-- In a pair list with no duplicate keys, two members with the same key
are the same pair. -/
theorem nodup_fst_uniq {α : Type} :
    ∀ (vals : List (Nat × α)), (vals.map Prod.fst).Nodup →
      ∀ (p q : Nat × α), p ∈ vals → q ∈ vals → q.1 = p.1 → q = p := by
  intro vals
  induction vals with
  | nil => intro _ p q hp _ _; cases hp
  | cons a rest ih =>
    intro hnodup p q hp hq he
    rw [List.map_cons] at hnodup
    have h2 := List.nodup_cons.mp hnodup
    rcases List.mem_cons.mp hp with rfl | hp2
    · rcases List.mem_cons.mp hq with rfl | hq2
      · rfl
      · have : p.1 ∈ rest.map Prod.fst := by
          rw [← he]; exact List.mem_map.mpr ⟨q, hq2, rfl⟩
        exact absurd this h2.1
    · rcases List.mem_cons.mp hq with rfl | hq2
      · have : q.1 ∈ rest.map Prod.fst := by
          rw [he]; exact List.mem_map.mpr ⟨p, hp2, rfl⟩
        exact absurd this h2.1
      · exact ih h2.2 p q hp2 hq2 he

/-! ### Claims about the cache store -/

/-- Claim C5: for every resource kind and id list, the mapping returned
by `get_many` associates a requested id with exactly what `get` finds in
storage for it, and associates nothing with an id that was not requested
or is absent from storage — a miss is omitted rather than an error. -/
theorem get_many_exact_subset {α : Type} (st : List (Row α)) (ep : String)
    (ids : List Nat) (i : Nat) :
    hmLookup (SqliteCache.get_many st ep ids) i =
      if i ∈ ids then SqliteCache.get st i ep else none :=
  hmLookup_get_many st ep ids i

/-- Claim C4 counterexample: on a store that already holds a row for id 2
under kind `games`, a successful `set_many` of a new record for that id
is not visible to a subsequent `get`, which still answers the old row:
the success half of the claim fails as stated. -/
theorem set_many_visibility_cex :
    (SqliteCache.set_many [Row.mk 2 "games" "old"] "games" [(2, "new")]
        (fun _ _ => true)).2 = .ok () ∧
    ¬(SqliteCache.get
        (SqliteCache.set_many [Row.mk 2 "games" "old"] "games" [(2, "new")]
          (fun _ _ => true)).1 2 "games" = some "new") := by
  decide

/-- Claim C4 (amended): `set_many` is atomic — if inserting any pair
fails, the whole call fails and the store is unchanged, so none of the
batch is visible; if every insert succeeds, the whole batch is appended
to storage, and each entry is visible to subsequent `get`/`get_many`
calls provided its id occurs only once in the batch and was not already
stored under that kind (reads answer the oldest row for an id, so an
older row shadows the new entry). -/
theorem set_many_atomic_batch {α : Type} (st : List (Row α)) (ep : String)
    (vals : List (Nat × α)) (insertOk : Nat → α → Bool) :
    ((∃ p ∈ vals, insertOk p.1 p.2 = false) →
      SqliteCache.set_many st ep vals insertOk = (st, .error "insert failed")) ∧
    ((∀ p ∈ vals, insertOk p.1 p.2 = true) →
      SqliteCache.set_many st ep vals insertOk =
        (st ++ vals.map (fun p => ⟨p.1, ep, p.2⟩), .ok ()) ∧
      ∀ p ∈ vals, SqliteCache.get st p.1 ep = none →
        (∀ q ∈ vals, q.1 = p.1 → q = p) →
        SqliteCache.get (SqliteCache.set_many st ep vals insertOk).1 p.1 ep
          = some p.2) := by
  constructor
  · exact set_many_err st ep vals insertOk
  · intro hok
    have he := set_many_ok st ep vals insertOk hok
    refine ⟨he, ?_⟩
    intro p hp hfresh huniq
    rw [he]
    show SqliteCache.get (st ++ vals.map (fun q => ⟨q.1, ep, q.2⟩)) p.1 ep = some p.2
    rw [get_append_of_none _ _ _ _ hfresh]
    exact get_map_rows ep vals p hp huniq

theorem set_many_atomic_batch_witness :
    SqliteCache.set_many ([] : List (Row String)) "games" [(3, "a"), (4, "b")]
        (fun i _ => i == 3) = ([], .error "insert failed") ∧
    SqliteCache.get
      (SqliteCache.set_many ([] : List (Row String)) "games" [(3, "a")]
        (fun _ _ => true)).1 3 "games" = some "a" := by
  constructor
  · exact (set_many_atomic_batch [] "games" [(3, "a"), (4, "b")] (fun i _ => i == 3)).1
      ⟨(4, "b"), by decide, by decide⟩
  · exact ((set_many_atomic_batch [] "games" [(3, "a")] (fun _ _ => true)).2
      (by decide)).2 (3, "a") (by decide) (by decide) (by decide)

/-- Claim C6 counterexample: with a prior row for id 1 under `genres`,
`set_many` of a new record for id 1 succeeds, but the immediate
`get_many` over the same id returns the prior record, not the one just
inserted — the claim fails for that prior cache state. -/
theorem put_get_roundtrip_cex :
    (SqliteCache.set_many [Row.mk 1 "genres" "old"] "genres" [(1, "new")]
        (fun _ _ => true)).2 = .ok () ∧
    ¬(SqliteCache.get_many
        (SqliteCache.set_many [Row.mk 1 "genres" "old"] "genres" [(1, "new")]
          (fun _ _ => true)).1 "genres" [1] = [(1, "new")]) := by
  decide

/-- Claim C6 (amended): for every batch of pairs with pairwise distinct
ids none of which is already stored under the kind, `set_many` followed
immediately by `get_many` over the same ids returns exactly the inserted
pairs. The freshness restriction is forced by the counterexample: reads
answer the oldest stored row for an id, so a pre-existing row shadows a
newly inserted one. -/
theorem put_get_roundtrip_fresh {α : Type} (st : List (Row α)) (ep : String)
    (vals : List (Nat × α)) (hnodup : (vals.map Prod.fst).Nodup)
    (hfresh : ∀ p ∈ vals, SqliteCache.get st p.1 ep = none) :
    (SqliteCache.set_many st ep vals (fun _ _ => true)).2 = .ok () ∧
    SqliteCache.get_many (SqliteCache.set_many st ep vals (fun _ _ => true)).1 ep
      (vals.map Prod.fst) = vals := by
  have hok := set_many_ok st ep vals (fun _ _ => true) (fun p _ => rfl)
  rw [hok]
  refine ⟨rfl, ?_⟩
  show SqliteCache.get_many (st ++ vals.map (fun q => ⟨q.1, ep, q.2⟩)) ep
    (vals.map Prod.fst) = vals
  have hget : ∀ p ∈ vals,
      SqliteCache.get (st ++ vals.map (fun q => ⟨q.1, ep, q.2⟩)) p.1 ep = some p.2 := by
    intro p hp
    rw [get_append_of_none _ _ _ _ (hfresh p hp)]
    exact get_map_rows ep vals p hp (fun q hq he => nodup_fst_uniq vals hnodup p q hp hq he)
  have hfold := get_many_fresh_go (st ++ vals.map (fun q => ⟨q.1, ep, q.2⟩)) ep vals []
    hnodup hget (fun q _ => rfl)
  unfold SqliteCache.get_many
  simpa using hfold

theorem put_get_roundtrip_fresh_witness :
    (SqliteCache.set_many ([] : List (Row String)) "genres" [(5, "rpg"), (6, "sim")]
        (fun _ _ => true)).2 = .ok () ∧
    SqliteCache.get_many
      (SqliteCache.set_many ([] : List (Row String)) "genres" [(5, "rpg"), (6, "sim")]
        (fun _ _ => true)).1 "genres" [5, 6] = [(5, "rpg"), (6, "sim")] := by
  have h := put_get_roundtrip_fresh ([] : List (Row String)) "genres"
    [(5, "rpg"), (6, "sim")] (by decide) (by decide)
  simpa using h

/-! ### Claims about the batch resolver -/

/-- Claim C1: when every requested id is already cached for the kind,
`get_objects` issues no remote request, consumes no rate-limiter token,
leaves the cache unchanged, and returns exactly the cached records. -/
theorem resolve_fully_cached_no_fetch {α : Type} (getId : α → Nat) (st : List (Row α))
    (ep fields : String) (ids : List Nat) (resp : FetchResult α)
    (insertOk : Nat → α → Bool)
    (hall : ∀ i ∈ ids, (SqliteCache.get st i ep).isSome = true) :
    IGDB.get_objects getId st ep fields ids resp insertOk =
      ⟨.ok ((SqliteCache.get_many st ep ids).map Prod.snd), st, [], 0⟩ :=
  get_objects_hit_eq getId st ep fields ids resp insertOk hall

theorem resolve_fully_cached_no_fetch_witness :
    IGDB.get_objects (fun n : Nat => n) [Row.mk 71 "games" 71] "games" "*" [71]
        (.ok [72]) (fun _ _ => true) =
      ⟨.ok [71], [Row.mk 71 "games" 71], [], 0⟩ := by
  rw [resolve_fully_cached_no_fetch (fun n : Nat => n) [Row.mk 71 "games" 71] "games"
    "*" [71] (.ok [72]) (fun _ _ => true) (by decide)]
  decide

/-- Claim C2: when at least one requested id is uncached and the remote
answers with any record list — possibly shorter than the list of
requested misses — the resolver does not fail and returns exactly the
fetched records followed by the cache hits for the requested ids: no
record is produced for an id that was neither cached nor returned. -/
theorem resolve_short_response_total {α : Type} (getId : α → Nat) (st : List (Row α))
    (ep fields : String) (ids : List Nat) (l : List α)
    (hmiss : ∃ i ∈ ids, SqliteCache.get st i ep = none) :
    (IGDB.get_objects getId st ep fields ids (.ok l) (fun _ _ => true)).result =
      .ok (l ++ (SqliteCache.get_many st ep ids).map Prod.snd) := by
  rw [get_objects_miss_eq getId st ep fields ids (.ok l) (fun _ _ => true) hmiss]
  have hset := set_many_ok st ep (l.map (fun g => (getId g, g))) (fun _ _ => true)
    (fun p _ => rfl)
  simp [IGDB.req_igdb, hset]

theorem resolve_short_response_total_witness :
    (IGDB.get_objects (fun n : Nat => n) [Row.mk 71 "games" 71] "games" "*" [71, 72]
        (.ok []) (fun _ _ => true)).result = .ok [71] := by
  rw [resolve_short_response_total (fun n : Nat => n) [Row.mk 71 "games" 71] "games"
    "*" [71, 72] [] ⟨72, by decide, by decide⟩]
  decide

/-- Claim C3: when at least one requested id is uncached and the remote
answers a non-success HTTP status, `get_objects` fails with the error
string carrying the endpoint, the request body and the raw response
body, and the cache store is left exactly as it was. -/
theorem resolve_http_error_no_write {α : Type} (getId : α → Nat) (st : List (Row α))
    (ep fields : String) (ids : List Nat) (sb : String) (insertOk : Nat → α → Bool)
    (hmiss : ∃ i ∈ ids, SqliteCache.get st i ep = none) :
    IGDB.get_objects getId st ep fields ids (.httpErr sb) insertOk =
      ⟨.error ("invalid request for endpoint " ++ ep ++ " with body "
          ++ missRequestBody st ep fields ids ++ ": " ++ sb),
        st, [(ep, missRequestBody st ep fields ids)], 1⟩ := by
  rw [get_objects_miss_eq getId st ep fields ids (.httpErr sb) insertOk hmiss]
  rfl

theorem resolve_http_error_no_write_witness :
    IGDB.get_objects (fun n : Nat => n) ([] : List (Row Nat)) "games" "*" [72]
        (.httpErr "boom") (fun _ _ => true) =
      ⟨.error "invalid request for endpoint games with body limit 500; fields *; where id=(72);: boom",
        [], [("games", "limit 500; fields *; where id=(72);")], 1⟩ := by
  rw [resolve_http_error_no_write (fun n : Nat => n) ([] : List (Row Nat)) "games" "*"
    [72] "boom" (fun _ _ => true) ⟨72, by decide, by decide⟩]
  decide

/-- Claim C8: when at least one requested id is uncached, `get_objects`
issues exactly one request whose body is the query template around the
comma-separated decimal ids that missed the cache — the requested ids
not found in the cache, in input order — consuming one rate-limiter
token, and (when the remote returns records and the cache writes
succeed) the final result holds the fetched records followed by the
cached ones. -/
theorem resolve_fetches_only_misses {α : Type} (getId : α → Nat) (st : List (Row α))
    (ep fields : String) (ids : List Nat) (l : List α)
    (hmiss : ∃ i ∈ ids, SqliteCache.get st i ep = none) :
    IGDB.get_objects getId st ep fields ids (.ok l) (fun _ _ => true) =
      ⟨.ok (l ++ (SqliteCache.get_many st ep ids).map Prod.snd),
        st ++ l.map (fun g => ⟨getId g, ep, g⟩),
        [(ep, "limit 500; fields " ++ fields ++ "; where id=(" ++
          joinComma ((ids.filter (fun i => (SqliteCache.get st i ep).isNone)).map
            (fun i => toString i)) ++ ");")],
        1⟩ := by
  rw [get_objects_miss_eq getId st ep fields ids (.ok l) (fun _ _ => true) hmiss]
  have hset := set_many_ok st ep (l.map (fun g => (getId g, g))) (fun _ _ => true)
    (fun p _ => rfl)
  simp [IGDB.req_igdb, hset, missRequestBody, List.map_map, Function.comp]

theorem resolve_fetches_only_misses_witness :
    IGDB.get_objects (fun n : Nat => n) [Row.mk 71 "games" 71] "games" "*" [71, 72]
        (.ok [72]) (fun _ _ => true) =
      ⟨.ok [72, 71], [Row.mk 71 "games" 71, Row.mk 72 "games" 72],
        [("games", "limit 500; fields *; where id=(72);")], 1⟩ := by
  rw [resolve_fetches_only_misses (fun n : Nat => n) [Row.mk 71 "games" 71] "games" "*"
    [71, 72] [72] ⟨72, by decide, by decide⟩]
  decide

/-- Claim C7: on the covers kind the resolver rewrites every returned
URL by replacing the `t_thumb` size token with `t_cover_med` and
prefixing the `https:` scheme; in particular the URL
`//images.example/t_thumb/abc.jpg` becomes
`https://images.example/t_cover_med/abc.jpg`. -/
theorem get_covers_url_normalization (st : List (Row Cover)) (ids : List Nat)
    (resp : FetchResult Cover) (insertOk : Nat → Cover → Bool) (l : List Cover)
    (h : (IGDB.get_objects Cover.id st "covers" "*" ids resp insertOk).result = .ok l) :
    (IGDB.get_covers st ids resp insertOk).result =
      .ok (l.map (fun cover =>
        { cover with url := "https:" ++ rustReplace cover.url "t_thumb" "t_cover_med" })) ∧
    "https:" ++ rustReplace "//images.example/t_thumb/abc.jpg" "t_thumb" "t_cover_med" =
      "https://images.example/t_cover_med/abc.jpg" := by
  constructor
  · simp only [IGDB.get_covers]
    rw [h]
    rfl
  · decide

theorem get_covers_url_normalization_witness :
    (IGDB.get_covers [Row.mk 7 "covers" (Cover.mk 7 "//images.example/t_thumb/abc.jpg")]
        [7] (.ok []) (fun _ _ => true)).result =
      .ok [Cover.mk 7 "https://images.example/t_cover_med/abc.jpg"] := by
  have h := get_covers_url_normalization
    [Row.mk 7 "covers" (Cover.mk 7 "//images.example/t_thumb/abc.jpg")] [7] (.ok [])
    (fun _ _ => true) [Cover.mk 7 "//images.example/t_thumb/abc.jpg"] (by decide)
  rw [h.1]
  decide

/-! ### Claims about client construction -/

/-- Claim C9 counterexample: the HTTP status of the token exchange is
never consulted — with credentials present, no pre-supplied token, and a
non-success response whose body nonetheless decodes to a token,
construction succeeds; a non-success status is not by itself fatal. -/
theorem igdb_new_status_ignored_cex :
    IGDB.new
      (fun k => if k = "IGDB_TWITCH_CLIENT_ID" then some "cid"
        else if k = "IGDB_TWITCH_CLIENT_SECRET" then some "sec" else none)
      (.resp ⟨false, "token-in-error-body", some "tok"⟩) =
      .ok ⟨"cid", "tok", 4⟩ := by
  decide

/-- Claim C9 (amended): construction fails when either credential
variable is missing, when the token exchange fails at the transport
level, and when the exchange response body does not decode to an access
token — the HTTP status itself is not consulted, so a non-success status
is fatal only insofar as its body fails to decode; and every
successfully constructed client carries an access token, taken from the
environment or from the exchange response. -/
theorem igdb_new_auth_failures (env : String → Option String)
    (ex : IGDB.ExchangeOutcome) :
    (env "IGDB_TWITCH_CLIENT_ID" = none →
      IGDB.new env ex = .error "env var IGDB_TWITCH_CLIENT_ID not found") ∧
    (∀ cid, env "IGDB_TWITCH_CLIENT_ID" = some cid →
      env "IGDB_TWITCH_CLIENT_SECRET" = none →
      IGDB.new env ex = .error "env var IGDB_TWITCH_CLIENT_SECRET not found") ∧
    (∀ cid sec m, env "IGDB_TWITCH_CLIENT_ID" = some cid →
      env "IGDB_TWITCH_CLIENT_SECRET" = some sec →
      env "TWITCH_ACCESS_TOKEN" = none → ex = .transportErr m →
      IGDB.new env ex = .error m) ∧
    (∀ cid sec r, env "IGDB_TWITCH_CLIENT_ID" = some cid →
      env "IGDB_TWITCH_CLIENT_SECRET" = some sec →
      env "TWITCH_ACCESS_TOKEN" = none → ex = .resp r → r.decodedToken = none →
      IGDB.new env ex = .error ("invalid response from twitch: " ++ r.strbody)) ∧
    (∀ c, IGDB.new env ex = .ok c →
      env "TWITCH_ACCESS_TOKEN" = some c.access_token ∨
      ∃ r, ex = .resp r ∧ r.decodedToken = some c.access_token) := by
  refine ⟨?_, ?_, ?_, ?_, ?_⟩
  · intro h; simp [IGDB.new, h]
  · intro cid h1 h2; simp [IGDB.new, h1, h2]
  · intro cid sec m h1 h2 h3 h4; simp [IGDB.new, h1, h2, h3, h4]
  · intro cid sec r h1 h2 h3 h4 h5; simp [IGDB.new, h1, h2, h3, h4, h5]
  · intro c hc
    cases h1 : env "IGDB_TWITCH_CLIENT_ID" with
    | none => simp [IGDB.new, h1] at hc
    | some cid =>
      cases h2 : env "IGDB_TWITCH_CLIENT_SECRET" with
      | none => simp [IGDB.new, h1, h2] at hc
      | some sec =>
        cases h3 : env "TWITCH_ACCESS_TOKEN" with
        | some tok =>
          have hval : IGDB.new env ex = .ok ⟨cid, tok, 4⟩ := by
            simp [IGDB.new, h1, h2, h3]
          rw [hval] at hc
          injection hc with h
          subst h
          left
          rfl
        | none =>
          cases ex with
          | transportErr m => simp [IGDB.new, h1, h2, h3] at hc
          | resp r =>
            cases h4 : r.decodedToken with
            | none => simp [IGDB.new, h1, h2, h3, h4] at hc
            | some tok =>
              have hval : IGDB.new env (.resp r) = .ok ⟨cid, tok, 4⟩ := by
                simp [IGDB.new, h1, h2, h3, h4]
              rw [hval] at hc
              injection hc with h
              subst h
              right
              exact ⟨r, rfl, by rw [h4]⟩

theorem igdb_new_auth_failures_witness :
    IGDB.new (fun _ => none) (.transportErr "net down") =
      .error "env var IGDB_TWITCH_CLIENT_ID not found" :=
  (igdb_new_auth_failures (fun _ => none) (.transportErr "net down")).1 rfl

/-- Claim C10: `IGDB::new` reads the client id and the client secret
before consulting `TWITCH_ACCESS_TOKEN`, so a missing client secret is
fatal even when a pre-supplied access token is available and no token
exchange would be needed. -/
theorem igdb_new_secret_before_token (env : String → Option String)
    (ex : IGDB.ExchangeOutcome) (cid : String)
    (hid : env "IGDB_TWITCH_CLIENT_ID" = some cid)
    (hsec : env "IGDB_TWITCH_CLIENT_SECRET" = none) :
    IGDB.new env ex = .error "env var IGDB_TWITCH_CLIENT_SECRET not found" := by
  simp [IGDB.new, hid, hsec]

theorem igdb_new_secret_before_token_witness :
    IGDB.new
      (fun k => if k = "IGDB_TWITCH_CLIENT_ID" then some "cid"
        else if k = "TWITCH_ACCESS_TOKEN" then some "tok" else none)
      (.transportErr "unused") =
      .error "env var IGDB_TWITCH_CLIENT_SECRET not found" :=
  igdb_new_secret_before_token _ _ "cid" (by decide) (by decide)

end GameReviews
